import Mathlib

/-!
# Verification of the databay buffering engine and outlet lifecycle

Shallow embedding of `src/databay/misc/buffers.py` (`Buffer`) and
`src/databay/outlet.py` (`Outlet`), with theorems settling the claims of the
natural-language specification.

Modelling conventions:
* Records are an abstract type `ρ`; Python lists become `List ρ`.
* `time.time()` is modelled by an ambient clock `clock : Nat → ℚ` together with
  a read index threaded through the computation: each call to `time.time()`
  reads `clock i` and advances the index.  Python floats are modelled as `ℚ`.
* Python exceptions raised by custom controllers are modelled by `Except`:
  a custom controller is a function `List ρ → Except ε Bool`.  Because Python
  exceptions leave already-performed mutations of `self` in place, the error
  branch of `Buffer.execute` carries the post-mutation buffer state.
-/

namespace Databay

/-- State of a `Buffer` (fields of `Buffer.__init__` in `buffers.py`).
`custom_controllers` is the normalised list (the Python constructor wraps a
single callable into a list).  Custom controllers may raise, hence `Except`. -/
structure Buffer (ρ ε : Type) where
  count_threshold : Option Nat
  time_threshold : Option ℚ
  custom_controllers : List (List ρ → Except ε Bool)
  records : List ρ
  time_start : Option ℚ
  flush : Bool

variable {ρ ε : Type}

/-- `Buffer.__init__`: thresholds and custom controllers are stored, the
accumulation starts empty, `time_start` unset, `flush` false. -/
def Buffer.init (ct : Option Nat) (tt : Option ℚ)
    (cc : List (List ρ → Except ε Bool)) : Buffer ρ ε :=
  { count_threshold := ct
    time_threshold := tt
    custom_controllers := cc
    records := []
    time_start := none
    flush := false }

/-- `Buffer.count_controller`: `len(records) > self.count_threshold`. -/
def count_controller (threshold : Nat) (records : List ρ) : Bool :=
  records.length > threshold

/-- `Buffer.time_controller`: if `time_start` is unset it is set to the current
`time.time()` reading; then a fresh `time.time()` reading is compared against
`time_start + time_threshold`.  Returns the verdict, the (possibly updated)
`time_start`, and the advanced clock index. -/
def time_controller (threshold : ℚ) (clock : Nat → ℚ) (ts : Option ℚ)
    (i : Nat) : Bool × Option ℚ × Nat :=
  match ts with
  | none => (decide (clock (i + 1) > clock i + threshold), some (clock i), i + 2)
  | some t => (decide (clock i > t + threshold), some t, i + 1)

/-- A controller as it appears in the list built by `Buffer.get_controllers`:
the bound `count_controller` method (when `count_threshold` is set), the bound
`time_controller` method (when `time_threshold` is set), or a custom callable. -/
inductive ControllerTag (ρ ε : Type) where
  | count (threshold : Nat)
  | time (threshold : ℚ)
  | custom (f : List ρ → Except ε Bool)

/-- `Buffer.get_controllers`: count controller first (iff `count_threshold`
set), then time controller (iff `time_threshold` set), then the custom
controllers in configuration order. -/
def Buffer.get_controllers (b : Buffer ρ ε) : List (ControllerTag ρ ε) :=
  (match b.count_threshold with
    | some n => [ControllerTag.count n]
    | none => [])
  ++ (match b.time_threshold with
    | some t => [ControllerTag.time t]
    | none => [])
  ++ b.custom_controllers.map ControllerTag.custom

/-- One controller invocation `controller(self.records)`.  Only the time
controller touches `time_start` and the clock; only custom controllers can
raise. -/
def evalController (clock : Nat → ℚ) (c : ControllerTag ρ ε) (records : List ρ)
    (ts : Option ℚ) (i : Nat) : Except ε (Bool × Option ℚ × Nat) :=
  match c with
  | ControllerTag.count n => Except.ok (count_controller n records, ts, i)
  | ControllerTag.time t => Except.ok (time_controller t clock ts i)
  | ControllerTag.custom f => (f records).map (fun v => (v, ts, i))

/-- The `for controller in self.get_controllers()` loop of `Buffer.execute`:
every controller is invoked on the same full accumulated list; `acc` records
whether any controller so far returned true (`rv = self.records` in Python).
There is no break on a true verdict; a raised exception aborts the loop,
carrying the `time_start` and clock index current at that point. -/
def runControllers (clock : Nat → ℚ) :
    List (ControllerTag ρ ε) → List ρ → Bool → Option ℚ → Nat →
    Except (ε × Option ℚ × Nat) (Bool × Option ℚ × Nat)
  | [], _, acc, ts, i => Except.ok (acc, ts, i)
  | c :: cs, records, acc, ts, i =>
    match evalController clock c records ts i with
    | Except.error e => Except.error (e, ts, i)
    | Except.ok (v, ts', i') => runControllers clock cs records (acc || v) ts' i'

/-- `Buffer.reset`: clears the accumulation, unsets `time_start`, clears
`flush`. -/
def Buffer.reset (b : Buffer ρ ε) : Buffer ρ ε :=
  { b with records := [], time_start := none, flush := false }

/-- `Buffer.execute`: appends `new_records` to `self.records`; if `flush` is
set the whole accumulation is the return value, otherwise all controllers are
evaluated and the whole accumulation is returned if any verdict was true.
The reset happens exactly when the captured return value is a non-empty list
(`if rv != []`).  On a controller exception the mutated state (records already
appended, `time_start` possibly set) is carried in the error. -/
def Buffer.execute (clock : Nat → ℚ) (b : Buffer ρ ε) (new_records : List ρ)
    (i : Nat) : Except (ε × Buffer ρ ε × Nat) (List ρ × Buffer ρ ε × Nat) :=
  let recs := b.records ++ new_records
  let b₁ : Buffer ρ ε := { b with records := recs }
  if b.flush then
    if recs.isEmpty then Except.ok ([], b₁, i)
    else Except.ok (recs, b₁.reset, i)
  else
    match runControllers clock b₁.get_controllers recs false b₁.time_start i with
    | Except.error (e, ts, i') =>
        Except.error (e, { b₁ with time_start := ts }, i')
    | Except.ok (trig, ts, i') =>
        let b₂ : Buffer ρ ε := { b₁ with time_start := ts }
        if trig then
          if recs.isEmpty then Except.ok ([], b₂, i')
          else Except.ok (recs, b₂.reset, i')
        else Except.ok ([], b₂, i')

/-- Modelled from the spec: `request_flush()` "sets the manual `flush` flag;
takes effect on the *next* `execute` call".  The method itself is not present
under `src/` (only the `flush` attribute it sets is, read by
`Buffer.execute`). -/
def Buffer.request_flush (b : Buffer ρ ε) : Buffer ρ ε :=
  { b with flush := true }

/-! ## Outlet (`src/databay/outlet.py`)

`push` is abstract; a concrete subclass provides either a plain function
(synchronous) or a coroutine function.  A coroutine function called without
`await` merely creates a suspended coroutine object; `await` runs it.  The
constructor computes `asyncio.iscoroutinefunction(self.push)` once and stores
it in `self._uses_coroutine`; `_push` dispatches on that stored flag.

`try_start`/`try_shutdown` hold `self._thread_lock` only across the
check-and-flip of `self._active`; the `on_start`/`on_shutdown` hooks run after
the lock is released, exactly when the flip happened inside the guard. -/

/-- A suspended coroutine: calling a coroutine function yields this wrapper;
`await` extracts/runs it. -/
structure Coroutine (β : Type) where
  run : β

/-- The `push` implementation a subclass provides: either synchronous or a
coroutine function (`α` the argument data, `β` the effect of running the
body to completion). -/
inductive PushImpl (α β : Type) where
  | sync (f : α → β)
  | coroutine (f : α → Coroutine β)

/-- `asyncio.iscoroutinefunction(self.push)`. -/
def iscoroutinefunction {α β : Type} : PushImpl α β → Bool
  | PushImpl.sync _ => false
  | PushImpl.coroutine _ => true

/-- State of an `Outlet` as set up by `Outlet.__init__`. -/
structure Outlet (α β : Type) where
  pushImpl : PushImpl α β
  _active : Bool
  _uses_coroutine : Bool

/-- `Outlet.__init__`: `_active = False`, and the sync/async nature of `push`
is detected once and stored in `_uses_coroutine`. -/
def Outlet.init {α β : Type} (p : PushImpl α β) : Outlet α β :=
  { pushImpl := p, _active := false, _uses_coroutine := iscoroutinefunction p }

/-- The `active` property: returns `self._active`. -/
def Outlet.active {α β : Type} (o : Outlet α β) : Bool :=
  o._active

/-- Outcome of `Outlet._push`: the push body ran to completion, or
`await` was applied to a non-awaitable (`TypeError`), or a coroutine object
was created but never awaited (body never ran). -/
inductive PushOutcome (β : Type) where
  | completed (b : β)
  | typeError
  | neverAwaited
deriving DecidableEq

/-- `Outlet._push`: dispatches on the *stored* `_uses_coroutine` flag —
`rv = await self.push(...)` when the flag is set, `rv = self.push(...)`
otherwise. -/
def Outlet._push {α β : Type} (o : Outlet α β) (x : α) : PushOutcome β :=
  if o._uses_coroutine then
    match o.pushImpl with
    | PushImpl.coroutine f => PushOutcome.completed (f x).run
    | PushImpl.sync _ => PushOutcome.typeError
  else
    match o.pushImpl with
    | PushImpl.sync f => PushOutcome.completed (f x)
    | PushImpl.coroutine _ => PushOutcome.neverAwaited

/-- The effect of invoking the given `push` implementation correctly
(calling it when synchronous, awaiting it when a coroutine function). -/
def pushEffect {α β : Type} : PushImpl α β → α → β
  | PushImpl.sync f, x => f x
  | PushImpl.coroutine f, x => (f x).run

/-- The guarded section of `Outlet.try_start` (`with self._thread_lock:`):
check `self._active`, flip it to `True` when it was `False`, and report in
`allow_run_on_start` whether the flip happened. -/
def Outlet.lockedStartCheckFlip {α β : Type} (o : Outlet α β) :
    Outlet α β × Bool :=
  if o._active then (o, false) else ({ o with _active := true }, true)

/-- The guarded section of `Outlet.try_shutdown`: check `self._active`, flip
it to `False` when it was `True`, and report whether the flip happened. -/
def Outlet.lockedShutdownCheckFlip {α β : Type} (o : Outlet α β) :
    Outlet α β × Bool :=
  if o._active then ({ o with _active := false }, true) else (o, false)

/-- `Outlet.try_start`: the guarded check-and-flip, then (outside the guard)
`on_start()` exactly when `allow_run_on_start` is true.  The returned boolean
reports whether `on_start` was invoked. -/
def Outlet.try_start {α β : Type} (o : Outlet α β) : Outlet α β × Bool :=
  o.lockedStartCheckFlip

/-- `Outlet.try_shutdown`: the guarded check-and-flip, then (outside the
guard) `on_shutdown()` exactly when `allow_run_on_shutdown` is true.  The
returned boolean reports whether `on_shutdown` was invoked. -/
def Outlet.try_shutdown {α β : Type} (o : Outlet α β) : Outlet α β × Bool :=
  o.lockedShutdownCheckFlip

/-- `Outlet.try_start` with an explicit `on_start` hook that, like the Python
method, can observe the outlet (`self`) as it is when the hook runs — i.e.
after the guarded flip.  Returns the hook's observation when it was invoked. -/
def Outlet.try_start_observing {α β γ : Type} (o : Outlet α β)
    (hook : Outlet α β → γ) : Outlet α β × Option γ :=
  let (o', allow) := o.lockedStartCheckFlip
  if allow then (o', some (hook o')) else (o', none)

/-- `Outlet.try_shutdown` with an explicit `on_shutdown` hook observing the
outlet as it is when the hook runs. -/
def Outlet.try_shutdown_observing {α β γ : Type} (o : Outlet α β)
    (hook : Outlet α β → γ) : Outlet α β × Option γ :=
  let (o', allow) := o.lockedShutdownCheckFlip
  if allow then (o', some (hook o')) else (o', none)

/-- `N` threads racing through `try_start` on the same outlet: the
`_thread_lock` serialises the guarded check-and-flip sections, so a concurrent
execution is some sequence of `lockedStartCheckFlip` steps; the hooks run
outside the guard and each thread invokes `on_start` exactly when its own
`allow_run_on_start` flag is true, so the total number of `on_start`
invocations is the number of flips.  Returns the final outlet state and that
number. -/
def Outlet.serialize_starts {α β : Type} :
    Nat → Outlet α β → Outlet α β × Nat
  | 0, o => (o, 0)
  | n + 1, o =>
    let (o', allow) := o.lockedStartCheckFlip
    let (of, k) := Outlet.serialize_starts n o'
    (of, (if allow then 1 else 0) + k)

/-- `N` threads racing through `try_shutdown`: serialised guarded sections,
returning the final state and the number of `on_shutdown` invocations. -/
def Outlet.serialize_shutdowns {α β : Type} :
    Nat → Outlet α β → Outlet α β × Nat
  | 0, o => (o, 0)
  | n + 1, o =>
    let (o', allow) := o.lockedShutdownCheckFlip
    let (of, k) := Outlet.serialize_shutdowns n o'
    (of, (if allow then 1 else 0) + k)

/-! ## Helper lemmas -/

/-- A run over purely boolean (never raising) custom controllers succeeds,
evaluates every one of them on the same record list, leaves `time_start` and
the clock untouched, and ors all verdicts together. -/
theorem runControllers_pure_custom (clock : Nat → ℚ)
    (fs : List (List ρ → Bool)) (recs : List ρ) (acc : Bool) (ts : Option ℚ)
    (i : Nat) :
    runControllers (ρ := ρ) (ε := ε) clock
        (fs.map (fun f => ControllerTag.custom (fun rs => Except.ok (f rs))))
        recs acc ts i =
      Except.ok (acc || fs.any (fun f => f recs), ts, i) := by
  induction fs generalizing acc with
  | nil => simp [runControllers]
  | cons f fs ih =>
      simp only [List.map_cons, runControllers, evalController, Except.map,
        List.any_cons]
      rw [ih, Bool.or_assoc]

/-- Composing controller runs: a successful run of a prefix continues with the
rest from the reached state. -/
theorem runControllers_append (clock : Nat → ℚ)
    (cs₁ cs₂ : List (ControllerTag ρ ε)) (recs : List ρ) (acc : Bool)
    (ts : Option ℚ) (i : Nat) (acc' : Bool) (ts' : Option ℚ) (i' : Nat)
    (h : runControllers clock cs₁ recs acc ts i = Except.ok (acc', ts', i')) :
    runControllers clock (cs₁ ++ cs₂) recs acc ts i =
      runControllers clock cs₂ recs acc' ts' i' := by
  induction cs₁ generalizing acc ts i with
  | nil =>
      simp [runControllers] at h
      simp [runControllers, h]
  | cons c cs ih =>
      simp only [runControllers, List.cons_append] at h ⊢
      cases hev : evalController clock c recs ts i with
      | error e => simp [hev] at h
      | ok v =>
          obtain ⟨v, ts₁, i₁⟩ := v
          simp only [hev] at h ⊢
          exact ih _ _ _ h

/-- `time_start` is never unset by a controller run: once `some`, it stays
that exact value, whether the run succeeds or raises. -/
theorem runControllers_time_start_mono (clock : Nat → ℚ)
    (cs : List (ControllerTag ρ ε)) (recs : List ρ) (acc : Bool) (t : ℚ)
    (i : Nat) :
    (∀ acc' ts' i',
        runControllers clock cs recs acc (some t) i = Except.ok (acc', ts', i') →
          ts' = some t) ∧
    (∀ e ts' i',
        runControllers clock cs recs acc (some t) i =
            Except.error (e, ts', i') →
          ts' = some t) := by
  induction cs generalizing acc i with
  | nil =>
      constructor
      · intro acc' ts' i' h
        simp [runControllers] at h
        exact h.2.1.symm
      · intro e ts' i' h
        simp [runControllers] at h
  | cons c cs ih =>
      constructor
      · intro acc' ts' i' h
        cases c with
        | count n =>
            simp only [runControllers, evalController] at h
            exact (ih _ _).1 _ _ _ h
        | time T =>
            simp only [runControllers, evalController, time_controller] at h
            exact (ih _ _).1 _ _ _ h
        | custom f =>
            simp only [runControllers, evalController] at h
            cases hf : f recs with
            | error e => simp [hf, Except.map] at h
            | ok v =>
                simp only [hf, Except.map] at h
                exact (ih _ _).1 _ _ _ h
      · intro e ts' i' h
        cases c with
        | count n =>
            simp only [runControllers, evalController] at h
            exact (ih _ _).2 _ _ _ h
        | time T =>
            simp only [runControllers, evalController, time_controller] at h
            exact (ih _ _).2 _ _ _ h
        | custom f =>
            simp only [runControllers, evalController] at h
            cases hf : f recs with
            | error e₀ =>
                simp [hf, Except.map] at h
                exact h.2.1.symm
            | ok v =>
                simp only [hf, Except.map] at h
                exact (ih _ _).2 _ _ _ h

/-! ## Claims -/

/-- C1 (amended).  For a Buffer with `count_threshold = N` and no other
controllers: an `execute` call whose resulting accumulated length is at most
`N` returns the empty list and keeps the accumulation; a call whose resulting
length exceeds `N` returns the entire accumulation in append order and fully
resets; when records arrive one per call the releasing batch has size exactly
`N + 1`; and with `N = 0` any call with a non-empty accumulation releases it.
(The original claim's "batch of size N+1" holds only for single-record
appends: one call may append several records and release a larger batch, see
the counterexample.) -/
theorem count_threshold_release (N : Nat) (recs0 new : List ρ)
    (ts0 : Option ℚ) (clock : Nat → ℚ) (i : Nat) :
    ((recs0 ++ new).length ≤ N →
      Buffer.execute clock (⟨some N, none, [], recs0, ts0, false⟩ : Buffer ρ ε)
          new i =
        Except.ok ([], ⟨some N, none, [], recs0 ++ new, ts0, false⟩, i)) ∧
    ((recs0 ++ new).length > N →
      Buffer.execute clock (⟨some N, none, [], recs0, ts0, false⟩ : Buffer ρ ε)
          new i =
        Except.ok (recs0 ++ new, ⟨some N, none, [], [], none, false⟩, i)) ∧
    (recs0.length ≤ N → new.length = 1 → (recs0 ++ new).length > N →
      (recs0 ++ new).length = N + 1) ∧
    (N = 0 → recs0 ++ new ≠ [] →
      Buffer.execute clock (⟨some 0, none, [], recs0, ts0, false⟩ : Buffer ρ ε)
          new i =
        Except.ok (recs0 ++ new, ⟨some 0, none, [], [], none, false⟩, i)) := by
  have key : ∀ (M : Nat),
      Buffer.execute clock (⟨some M, none, [], recs0, ts0, false⟩ : Buffer ρ ε)
          new i =
        if (recs0 ++ new).length > M then
          Except.ok (recs0 ++ new, ⟨some M, none, [], [], none, false⟩, i)
        else
          Except.ok ([], ⟨some M, none, [], recs0 ++ new, ts0, false⟩, i) := by
    intro M
    simp only [Buffer.execute, Buffer.get_controllers, List.map_nil,
      List.append_nil, List.singleton_append, runControllers, evalController,
      count_controller, Bool.false_or, Buffer.reset]
    by_cases h : (recs0 ++ new).length > M
    · have hne : (recs0 ++ new).isEmpty = false := by
        cases hrecs : recs0 ++ new with
        | nil => simp [hrecs] at h
        | cons a l => simp [List.isEmpty]
      have h1 : M < recs0.length + new.length := by
        simpa [List.length_append] using h
      simp [h1, hne]
    · have h2 : ¬ M < recs0.length + new.length := by
        simpa [List.length_append] using h
      simp [h2]
  refine ⟨?_, ?_, ?_, ?_⟩
  · intro h
    rw [key N, if_neg (Nat.not_lt.mpr h)]
  · intro h
    rw [key N, if_pos h]
  · intro h1 h2 h3
    have := List.length_append recs0 new
    omega
  · intro hN hne
    subst hN
    have hpos : (recs0 ++ new).length > 0 := List.length_pos.mpr hne
    rw [key 0, if_pos hpos]

/-- C1 counterexample: with `count_threshold = 0`, a single `execute` call
appending two records releases a batch of size `2`, not `N + 1 = 1` as the
claim states. -/
theorem count_threshold_release_counterexample :
    Buffer.execute (fun _ => 0)
        (Buffer.init (some 0) none [] : Buffer Nat Unit) [1, 2] 0 =
      Except.ok ([1, 2], Buffer.init (some 0) none [], 0) ∧
    ([1, 2] : List Nat).length ≠ 0 + 1 := by
  constructor
  · rfl
  · decide

/-- Witness for C1: concrete runs at `N = 2` below and at `N = 2` above the
threshold. -/
theorem count_threshold_release_witness :
    Buffer.execute (fun _ => 0)
        (⟨some 2, none, [], [1], none, false⟩ : Buffer Nat Unit) [2] 0 =
      Except.ok ([], ⟨some 2, none, [], [1, 2], none, false⟩, 0) ∧
    Buffer.execute (fun _ => 0)
        (⟨some 2, none, [], [1, 2], none, false⟩ : Buffer Nat Unit) [3] 0 =
      Except.ok ([1, 2, 3], ⟨some 2, none, [], [], none, false⟩, 0) :=
  ⟨(count_threshold_release 2 [1] [2] none (fun _ => 0) 0).1 (by decide),
   (count_threshold_release 2 [1, 2] [3] none (fun _ => 0) 0).2.1 (by decide)⟩

/-- C2.  Full-reset invariant and no-drop: any `execute` call returning a
non-empty batch leaves `records` empty, `time_start` unset and `flush` false;
a call returning the empty batch leaves the accumulation exactly as the old
records followed by the new ones (never shrinking); every returned batch is
either empty or the whole accumulation, so every record handed to `execute`
stays accumulated (in append order) until it is part of a returned batch —
also when a controller raises. -/
theorem execute_reset_and_no_drop (clock : Nat → ℚ) (b : Buffer ρ ε)
    (new : List ρ) (i : Nat) :
    (∀ rv b' i', Buffer.execute clock b new i = Except.ok (rv, b', i') →
        (rv ≠ [] → b'.records = [] ∧ b'.time_start = none ∧ b'.flush = false) ∧
        (rv = [] → b'.records = b.records ++ new) ∧
        (rv = [] ∨ rv = b.records ++ new)) ∧
    (∀ e b' i', Buffer.execute clock b new i = Except.error (e, b', i') →
        b'.records = b.records ++ new) := by
  constructor
  · intro rv b' i' h
    simp only [Buffer.execute] at h
    split at h
    · split at h
      · simp only [Except.ok.injEq, Prod.mk.injEq] at h
        obtain ⟨h1, h2, -⟩ := h
        subst h1
        subst h2
        exact ⟨fun hc => absurd rfl hc, fun _ => rfl, Or.inl rfl⟩
      · rename_i hemp
        simp only [Except.ok.injEq, Prod.mk.injEq] at h
        obtain ⟨h1, h2, -⟩ := h
        subst h1
        subst h2
        refine ⟨fun _ => ⟨rfl, rfl, rfl⟩, fun hc => absurd ?_ hemp, Or.inr rfl⟩
        simp [hc]
    · split at h
      · simp at h
      · rename_i trig ts i₂ heq
        split at h
        · split at h
          · simp only [Except.ok.injEq, Prod.mk.injEq] at h
            obtain ⟨h1, h2, -⟩ := h
            subst h1
            subst h2
            exact ⟨fun hc => absurd rfl hc, fun _ => rfl, Or.inl rfl⟩
          · rename_i hemp
            simp only [Except.ok.injEq, Prod.mk.injEq] at h
            obtain ⟨h1, h2, -⟩ := h
            subst h1
            subst h2
            refine ⟨fun _ => ⟨rfl, rfl, rfl⟩, fun hc => absurd ?_ hemp,
              Or.inr rfl⟩
            simp [hc]
        · simp only [Except.ok.injEq, Prod.mk.injEq] at h
          obtain ⟨h1, h2, -⟩ := h
          subst h1
          subst h2
          exact ⟨fun hc => absurd rfl hc, fun _ => rfl, Or.inl rfl⟩
  · intro e b' i' h
    simp only [Buffer.execute] at h
    split at h
    · split at h
      · simp at h
      · simp at h
    · split at h
      · simp only [Except.error.injEq, Prod.mk.injEq] at h
        obtain ⟨-, h2, -⟩ := h
        subst h2
        rfl
      · split at h
        · split at h
          · simp at h
          · simp at h
        · simp at h

/-- Witness for C2: a concrete flush-releasing call fully resets the state. -/
theorem execute_reset_and_no_drop_witness :
    (Buffer.init (ρ := Nat) (ε := Unit) none none []).records = [] ∧
    (Buffer.init (ρ := Nat) (ε := Unit) none none []).time_start = none ∧
    (Buffer.init (ρ := Nat) (ε := Unit) none none []).flush = false :=
  ((execute_reset_and_no_drop (fun _ => 0)
      (⟨none, none, [], [5], none, true⟩ : Buffer Nat Unit) [] 0).1
    [5] (Buffer.init none none []) 0 (by rfl)).1 (by decide)

/-- A controller list whose custom part is boolean controllers followed by a
raising controller aborts with that error, regardless of the earlier
verdicts. -/
theorem runControllers_custom_error (clock : Nat → ℚ)
    (fs : List (List ρ → Bool)) (g : List ρ → ε)
    (rest : List (List ρ → Except ε Bool)) (recs : List ρ) (acc : Bool)
    (ts : Option ℚ) (i : Nat) :
    runControllers clock
        (fs.map (fun f => ControllerTag.custom (fun rs => Except.ok (f rs))) ++
          ControllerTag.custom (fun rs => Except.error (g rs)) ::
            rest.map ControllerTag.custom) recs acc ts i =
      Except.error (g recs, ts, i) := by
  rw [runControllers_append clock _ _ recs acc ts i _ ts i
      (runControllers_pure_custom clock fs recs acc ts i)]
  simp [runControllers, evalController, Except.map]

/-- C3.  A raising controller leaves the Buffer pre-reset: whenever `execute`
propagates an error, the accumulated records are the old ones followed by the
current call's new ones, the configuration and `flush` are untouched and a set
`time_start` is never unset (no reset of any kind).  Moreover a raising custom
controller does make `execute` propagate the error: with any count threshold,
no time threshold, and custom controllers formed by plain boolean predicates
followed by a raising one, `execute` returns exactly that error together with
the post-append state. -/
theorem controller_error_leaves_state (clock : Nat → ℚ) :
    (∀ (b : Buffer ρ ε) (new : List ρ) (i : Nat) e b' i',
        Buffer.execute clock b new i = Except.error (e, b', i') →
          b'.records = b.records ++ new ∧ b'.flush = b.flush ∧
          b'.count_threshold = b.count_threshold ∧
          b'.time_threshold = b.time_threshold ∧
          b'.custom_controllers = b.custom_controllers ∧
          ∀ t, b.time_start = some t → b'.time_start = some t) ∧
    (∀ (ct : Option Nat) (recs0 new : List ρ) (ts0 : Option ℚ)
        (fs : List (List ρ → Bool)) (g : List ρ → ε)
        (rest : List (List ρ → Except ε Bool)) (i : Nat),
        Buffer.execute clock
            (⟨ct, none,
              fs.map (fun f rs => Except.ok (f rs)) ++
                (fun rs => Except.error (g rs)) :: rest,
              recs0, ts0, false⟩ : Buffer ρ ε) new i =
          Except.error (g (recs0 ++ new),
            ⟨ct, none,
              fs.map (fun f rs => Except.ok (f rs)) ++
                (fun rs => Except.error (g rs)) :: rest,
              recs0 ++ new, ts0, false⟩, i)) := by
  constructor
  · intro b new i e b' i' h
    simp only [Buffer.execute] at h
    split at h
    · split at h
      · simp at h
      · simp at h
    · split at h
      · rename_i heq
        simp only [Except.error.injEq, Prod.mk.injEq] at h
        obtain ⟨h1, h2, -⟩ := h
        subst h2
        refine ⟨rfl, rfl, rfl, rfl, rfl, fun t ht => ?_⟩
        have := (runControllers_time_start_mono clock
          ({ b with records := b.records ++ new } : Buffer ρ ε).get_controllers
          (b.records ++ new) false t i).2
        rw [ht] at heq
        simpa using this _ _ _ heq
      · split at h
        · split at h
          · simp at h
          · simp at h
        · simp at h
  · intro ct recs0 new ts0 fs g rest i
    have hrun : runControllers clock
        ((⟨ct, none,
            fs.map (fun f rs => Except.ok (f rs)) ++
              (fun rs => Except.error (g rs)) :: rest,
            recs0 ++ new, ts0, false⟩ : Buffer ρ ε) : Buffer ρ ε).get_controllers
        (recs0 ++ new) false ts0 i =
        Except.error (g (recs0 ++ new), ts0, i) := by
      cases ct with
      | none =>
          simp only [Buffer.get_controllers, List.nil_append, List.map_append,
            List.map_cons, List.map_map, Function.comp]
          exact runControllers_custom_error clock fs g rest (recs0 ++ new)
            false ts0 i
      | some n =>
          simp only [Buffer.get_controllers, List.singleton_append,
            List.nil_append, List.map_append, List.map_cons, List.map_map,
            Function.comp, runControllers, evalController]
          exact runControllers_custom_error clock fs g rest (recs0 ++ new)
            _ ts0 i
    simp [Buffer.execute, hrun]

/-- Witness for C3: a raising custom controller on a concrete buffer leaves
the two accumulated records in place and the flush flag untouched. -/
theorem controller_error_leaves_state_witness :
    (⟨none, none, [fun _ => Except.error 7], [1, 2], none, false⟩ :
        Buffer Nat Nat).records = [1] ++ [2] ∧
    (⟨none, none, [fun _ => Except.error 7], [1, 2], none, false⟩ :
        Buffer Nat Nat).flush = false :=
  let h := (controller_error_leaves_state (fun _ => 0)).1
    (⟨none, none, [fun _ => Except.error 7], [1], none, false⟩ : Buffer Nat Nat)
    [2] 0 7
    (⟨none, none, [fun _ => Except.error 7], [1, 2], none, false⟩ :
      Buffer Nat Nat) 0 (by rfl)
  ⟨h.1, h.2.1⟩

/-- A count controller followed by pure boolean custom controllers: the run
succeeds, every predicate is applied to the same full record list, and the
verdicts are disjoined. -/
theorem runControllers_count_pure (clock : Nat → ℚ) (n : Nat)
    (fs : List (List ρ → Bool)) (recs : List ρ) (ts : Option ℚ) (i : Nat) :
    runControllers (ε := ε) clock
        (ControllerTag.count n ::
          fs.map (fun f => ControllerTag.custom (fun rs => Except.ok (f rs))))
        recs false ts i =
      Except.ok (count_controller n recs || fs.any (fun f => f recs), ts, i) := by
  simp only [runControllers, evalController]
  rw [runControllers_pure_custom]
  simp

/-- C4.  `get_controllers()` is the ordered list: count controller (iff
`count_threshold` set), then time controller (iff `time_threshold` set), then
the custom controllers in configuration order.  On an `execute` call without a
pending flush every controller is evaluated on the full post-append record
list and no evaluation stops at a true verdict: the released value is the
whole accumulation as soon as any verdict is true, the time controller still
consumes its clock reads after the count controller already returned true, and
a raising custom controller still aborts the call after the count controller
already returned true. -/
theorem controllers_order_and_full_evaluation (clock : Nat → ℚ) :
    (∀ (n : Nat) (T : ℚ) (cc : List (List ρ → Except ε Bool)) (recs0 : List ρ)
        (ts0 : Option ℚ) (fl : Bool),
        (⟨some n, some T, cc, recs0, ts0, fl⟩ : Buffer ρ ε).get_controllers =
          ControllerTag.count n :: ControllerTag.time T ::
            cc.map ControllerTag.custom ∧
        (⟨some n, none, cc, recs0, ts0, fl⟩ : Buffer ρ ε).get_controllers =
          ControllerTag.count n :: cc.map ControllerTag.custom ∧
        (⟨none, some T, cc, recs0, ts0, fl⟩ : Buffer ρ ε).get_controllers =
          ControllerTag.time T :: cc.map ControllerTag.custom ∧
        (⟨none, none, cc, recs0, ts0, fl⟩ : Buffer ρ ε).get_controllers =
          cc.map ControllerTag.custom) ∧
    (∀ (n : Nat) (fs : List (List ρ → Bool)) (recs0 new : List ρ)
        (ts0 : Option ℚ) (i : Nat),
        Buffer.execute clock
            (⟨some n, none, fs.map (fun f rs => Except.ok (f rs)), recs0, ts0,
              false⟩ : Buffer ρ ε) new i =
          if count_controller n (recs0 ++ new) ||
              (recs0 ++ new |> fun rs => fs.any (fun f => f rs)) then
            if (recs0 ++ new).isEmpty then
              Except.ok ([], ⟨some n, none,
                fs.map (fun f rs => Except.ok (f rs)), recs0 ++ new, ts0,
                false⟩, i)
            else
              Except.ok (recs0 ++ new, ⟨some n, none,
                fs.map (fun f rs => Except.ok (f rs)), [], none, false⟩, i)
          else
            Except.ok ([], ⟨some n, none,
              fs.map (fun f rs => Except.ok (f rs)), recs0 ++ new, ts0,
              false⟩, i)) ∧
    (∀ (n : Nat) (T : ℚ) (recs0 new : List ρ) (i : Nat),
        (recs0 ++ new).length > n →
        Buffer.execute clock
            (⟨some n, some T, [], recs0, none, false⟩ : Buffer ρ ε) new i =
          Except.ok (recs0 ++ new,
            ⟨some n, some T, [], [], none, false⟩, i + 2)) ∧
    (∀ (n : Nat) (fs : List (List ρ → Bool)) (g : List ρ → ε)
        (rest : List (List ρ → Except ε Bool)) (recs0 new : List ρ)
        (ts0 : Option ℚ) (i : Nat),
        (recs0 ++ new).length > n →
        Buffer.execute clock
            (⟨some n, none,
              fs.map (fun f rs => Except.ok (f rs)) ++
                (fun rs => Except.error (g rs)) :: rest,
              recs0, ts0, false⟩ : Buffer ρ ε) new i =
          Except.error (g (recs0 ++ new),
            ⟨some n, none,
              fs.map (fun f rs => Except.ok (f rs)) ++
                (fun rs => Except.error (g rs)) :: rest,
              recs0 ++ new, ts0, false⟩, i)) := by
  refine ⟨fun n T cc recs0 ts0 fl => ⟨rfl, rfl, rfl, rfl⟩, ?_, ?_, ?_⟩
  · intro n fs recs0 new ts0 i
    have hrun := runControllers_count_pure (ε := ε) clock n fs (recs0 ++ new)
      ts0 i
    simp only [Buffer.execute, Buffer.get_controllers, List.singleton_append,
      List.nil_append, List.map_map, Function.comp_def]
    rw [if_neg Bool.false_ne_true, hrun]
    simp [Buffer.reset]
  · intro n T recs0 new i h
    have hne : (recs0 ++ new).isEmpty = false := by
      cases hrecs : recs0 ++ new with
      | nil => simp [hrecs] at h
      | cons a l => simp [List.isEmpty]
    have hc : count_controller n (recs0 ++ new) = true := by
      simp only [count_controller, decide_eq_true_eq]
      exact h
    have h' : n < recs0.length + new.length := by
      simpa [List.length_append] using h
    simp only [Buffer.execute, Buffer.get_controllers, List.singleton_append,
      List.nil_append, List.map_nil, List.append_nil, runControllers,
      evalController, time_controller, hc, Bool.false_or, Bool.true_or,
      hne, Buffer.reset]
    simp [hne, h']
  · intro n fs g rest recs0 new ts0 i h
    have hrun : runControllers clock
        ((⟨some n, none,
            fs.map (fun f rs => Except.ok (f rs)) ++
              (fun rs => Except.error (g rs)) :: rest,
            recs0 ++ new, ts0, false⟩ : Buffer ρ ε)).get_controllers
        (recs0 ++ new) false ts0 i =
        Except.error (g (recs0 ++ new), ts0, i) := by
      simp only [Buffer.get_controllers, List.singleton_append,
        List.nil_append, List.map_append, List.map_cons, List.map_map,
        Function.comp, runControllers, evalController]
      exact runControllers_custom_error clock fs g rest (recs0 ++ new) _ ts0 i
    simp [Buffer.execute, hrun]

/-- Witness for C4: with `count_threshold = 0` and `time_threshold = 1` both
configured, a releasing call still consumes the time controller's two clock
reads after the count controller already triggered. -/
theorem controllers_order_witness :
    Buffer.execute (fun n => (n : ℚ))
        (⟨some 0, some 1, [], [], none, false⟩ : Buffer Nat Unit) [1] 0 =
      Except.ok ([1], ⟨some 0, some 1, [], [], none, false⟩, 0 + 2) :=
  (controllers_order_and_full_evaluation (fun n => (n : ℚ))).2.2.1 0 1 [] [1] 0
    (by decide)

/-- C5 (amended).  After `request_flush()` the next `execute` call — for any
`new_records` and regardless of controller configuration — skips controller
evaluation (no clock read, verdicts ignored) and returns the entire
accumulated sequence.  When that sequence is non-empty the call performs the
full reset, leaving the flush flag false; when it is empty the call returns
the empty list and the flush flag stays set (the reset is guarded by
`rv != []`), contrary to the original claim — see the counterexample. -/
theorem request_flush_next_execute (clock : Nat → ℚ) (b : Buffer ρ ε)
    (new : List ρ) (i : Nat) :
    (b.records ++ new ≠ [] →
      Buffer.execute clock b.request_flush new i =
        Except.ok (b.records ++ new, b.reset, i) ∧
      (Buffer.reset b).flush = false) ∧
    (b.records ++ new = [] →
      Buffer.execute clock b.request_flush new i =
        Except.ok ([], { b.request_flush with records := b.records ++ new },
          i) ∧
      ({ b.request_flush with records := b.records ++ new } :
        Buffer ρ ε).flush = true) := by
  constructor
  · intro hne
    have hemp : (b.records ++ new).isEmpty = false := by
      cases hrecs : b.records ++ new with
      | nil => exact absurd hrecs hne
      | cons a l => simp [List.isEmpty]
    refine ⟨?_, rfl⟩
    simp only [Buffer.execute, Buffer.request_flush, hemp]
    rfl
  · intro hrecs
    have hemp : (b.records ++ new).isEmpty = true := by
      simp [hrecs]
    refine ⟨?_, rfl⟩
    simp only [Buffer.execute, Buffer.request_flush, hemp]
    rfl

/-- C5 counterexample: with an empty accumulation, the `execute` call after
`request_flush()` does not reset — the flush flag is still set afterwards,
while the claim demands a full reset leaving it false. -/
theorem request_flush_counterexample :
    Buffer.execute (fun _ => 0)
        ((Buffer.init none none [] : Buffer Nat Unit).request_flush) [] 0 =
      Except.ok ([], (Buffer.init none none [] :
        Buffer Nat Unit).request_flush, 0) ∧
    ((Buffer.init none none [] : Buffer Nat Unit).request_flush).flush =
      true := by
  exact ⟨rfl, rfl⟩

/-- Witness for C5: a non-empty accumulation is flushed wholesale and fully
reset by the `execute` call following `request_flush()`. -/
theorem request_flush_witness :
    Buffer.execute (fun _ => 0)
        ((⟨none, none, [], [1], none, false⟩ : Buffer Nat Unit).request_flush)
        [2] 0 =
      Except.ok ([1] ++ [2],
        (⟨none, none, [], [1], none, false⟩ : Buffer Nat Unit).reset, 0) :=
  ((request_flush_next_execute (fun _ => 0)
      (⟨none, none, [], [1], none, false⟩ : Buffer Nat Unit) [2] 0).1
    (by decide)).1

/-- C6.  Time controller: `time_start` is unset at construction and after any
reset, and is set to the clock reading of the first evaluation after a reset;
while the fresh reading is within `time_threshold` of the stamp, `execute`
releases nothing and keeps accumulating; once the reading strictly exceeds
`time_start + time_threshold`, the next `execute` call — whatever
`new_records` is, including the empty list — returns the full accumulated
batch and resets.  (Release can also happen on the very first evaluation when
the clock advances past the threshold between its two reads.) -/
theorem time_threshold_release (T : ℚ) (clock : Nat → ℚ) (recs0 new : List ρ)
    (i : Nat) :
    ((Buffer.init none (some T) [] : Buffer ρ ε).time_start = none) ∧
    (∀ b : Buffer ρ ε, (Buffer.reset b).time_start = none) ∧
    (clock (i + 1) ≤ clock i + T →
      Buffer.execute clock
          (⟨none, some T, [], recs0, none, false⟩ : Buffer ρ ε) new i =
        Except.ok ([],
          ⟨none, some T, [], recs0 ++ new, some (clock i), false⟩, i + 2)) ∧
    (∀ ts : ℚ, clock i ≤ ts + T →
      Buffer.execute clock
          (⟨none, some T, [], recs0, some ts, false⟩ : Buffer ρ ε) new i =
        Except.ok ([],
          ⟨none, some T, [], recs0 ++ new, some ts, false⟩, i + 1)) ∧
    (∀ ts : ℚ, clock i > ts + T → recs0 ++ new ≠ [] →
      Buffer.execute clock
          (⟨none, some T, [], recs0, some ts, false⟩ : Buffer ρ ε) new i =
        Except.ok (recs0 ++ new,
          ⟨none, some T, [], [], none, false⟩, i + 1)) ∧
    (clock (i + 1) > clock i + T → recs0 ++ new ≠ [] →
      Buffer.execute clock
          (⟨none, some T, [], recs0, none, false⟩ : Buffer ρ ε) new i =
        Except.ok (recs0 ++ new,
          ⟨none, some T, [], [], none, false⟩, i + 2)) := by
  refine ⟨rfl, fun b => rfl, ?_, ?_, ?_, ?_⟩
  · intro h
    have hv : decide (clock (i + 1) > clock i + T) = false :=
      decide_eq_false (not_lt.mpr h)
    simp only [Buffer.execute, Buffer.get_controllers, List.nil_append,
      List.map_nil, List.append_nil, runControllers, evalController,
      time_controller, hv, Bool.false_or]
    rfl
  · intro ts h
    have hv : decide (clock i > ts + T) = false :=
      decide_eq_false (not_lt.mpr h)
    simp only [Buffer.execute, Buffer.get_controllers, List.nil_append,
      List.map_nil, List.append_nil, runControllers, evalController,
      time_controller, hv, Bool.false_or]
    rfl
  · intro ts h hne
    have hv : decide (clock i > ts + T) = true := decide_eq_true h
    have hemp : (recs0 ++ new).isEmpty = false := by
      cases hrecs : recs0 ++ new with
      | nil => exact absurd hrecs hne
      | cons a l => simp [List.isEmpty]
    simp only [Buffer.execute, Buffer.get_controllers, List.nil_append,
      List.map_nil, List.append_nil, runControllers, evalController,
      time_controller, hv, Bool.false_or, hemp, Buffer.reset]
    rfl
  · intro h hne
    have hv : decide (clock (i + 1) > clock i + T) = true := decide_eq_true h
    have hemp : (recs0 ++ new).isEmpty = false := by
      cases hrecs : recs0 ++ new with
      | nil => exact absurd hrecs hne
      | cons a l => simp [List.isEmpty]
    simp only [Buffer.execute, Buffer.get_controllers, List.nil_append,
      List.map_nil, List.append_nil, runControllers, evalController,
      time_controller, hv, Bool.false_or, hemp, Buffer.reset]
    rfl

/-- Witness for C6: with threshold `10` and clock reading `5`, a stamped
buffer does not release; with threshold `1`, the same reading releases the
accumulated record. -/
theorem time_threshold_release_witness :
    Buffer.execute (fun _ => (0 : ℚ))
        (⟨none, some 10, [], [1], some 0, false⟩ : Buffer Nat Unit) [] 5 =
      Except.ok ([], ⟨none, some 10, [], [1] ++ [], some 0, false⟩, 5 + 1) ∧
    Buffer.execute (fun _ => (5 : ℚ))
        (⟨none, some 1, [], [1], some 0, false⟩ : Buffer Nat Unit) [] 5 =
      Except.ok ([1] ++ [], ⟨none, some 1, [], [], none, false⟩, 5 + 1) :=
  ⟨(time_threshold_release 10 (fun _ => (0 : ℚ)) [1] [] 5).2.2.2.1 0
      (by simp),
   (time_threshold_release 1 (fun _ => (5 : ℚ)) [1] [] 5).2.2.2.2.1 0
      (by simp) (by decide)⟩

/-- C7.  Destination lifecycle: an outlet is constructed inactive; `try_start`
on an inactive outlet activates it and invokes `on_start` (the returned flag),
while on an active outlet it is a silent no-op; `try_shutdown` is symmetric;
no state is terminal — after a shutdown, `try_start` activates the outlet and
fires `on_start` again. -/
theorem outlet_lifecycle {α β : Type} (p : PushImpl α β) :
    (Outlet.init p).active = false ∧
    (∀ o : Outlet α β, o.active = false →
      o.try_start = ({ o with _active := true }, true) ∧
      ({ o with _active := true } : Outlet α β).active = true) ∧
    (∀ o : Outlet α β, o.active = true → o.try_start = (o, false)) ∧
    (∀ o : Outlet α β, o.active = true →
      o.try_shutdown = ({ o with _active := false }, true) ∧
      ({ o with _active := false } : Outlet α β).active = false) ∧
    (∀ o : Outlet α β, o.active = false → o.try_shutdown = (o, false)) ∧
    (∀ o : Outlet α β, o.active = true →
      o.try_shutdown.1.try_start =
        ({ o.try_shutdown.1 with _active := true }, true) ∧
      ({ o.try_shutdown.1 with _active := true } : Outlet α β).active =
        true) := by
  refine ⟨rfl, ?_, ?_, ?_, ?_, ?_⟩
  · intro o h
    refine ⟨?_, rfl⟩
    simp [Outlet.try_start, Outlet.lockedStartCheckFlip, Outlet.active] at h ⊢
    simp [h]
  · intro o h
    simp [Outlet.try_start, Outlet.lockedStartCheckFlip, Outlet.active] at h ⊢
    simp [h]
  · intro o h
    refine ⟨?_, rfl⟩
    simp [Outlet.try_shutdown, Outlet.lockedShutdownCheckFlip,
      Outlet.active] at h ⊢
    simp [h]
  · intro o h
    simp [Outlet.try_shutdown, Outlet.lockedShutdownCheckFlip,
      Outlet.active] at h ⊢
    simp [h]
  · intro o h
    have h1 : o.try_shutdown.1._active = false := by
      simp [Outlet.try_shutdown, Outlet.lockedShutdownCheckFlip,
        Outlet.active] at h ⊢
      simp [h]
    exact ⟨by simp [Outlet.try_start, Outlet.lockedStartCheckFlip, h1], rfl⟩

/-- Witness for C7: starting a freshly constructed outlet flips it to active
and invokes the hook. -/
theorem outlet_lifecycle_witness :
    (Outlet.init (PushImpl.sync (id : Nat → Nat))).try_start =
      ({ Outlet.init (PushImpl.sync (id : Nat → Nat)) with _active := true },
        true) :=
  ((outlet_lifecycle (PushImpl.sync (id : Nat → Nat))).2.1
    (Outlet.init (PushImpl.sync (id : Nat → Nat))) rfl).1

/-- `try_start`'s guarded section is a no-op (no flip, no hook permission) on
an already-active outlet, so a serialised run over it neither changes state
nor fires hooks. -/
theorem serialize_starts_active {α β : Type} (n : Nat) (o : Outlet α β)
    (h : o._active = true) : Outlet.serialize_starts n o = (o, 0) := by
  induction n with
  | zero => rfl
  | succ n ih =>
      simp [Outlet.serialize_starts, Outlet.lockedStartCheckFlip, h, ih]

/-- Symmetric no-op fact for `try_shutdown` on an inactive outlet. -/
theorem serialize_shutdowns_inactive {α β : Type} (n : Nat) (o : Outlet α β)
    (h : o._active = false) : Outlet.serialize_shutdowns n o = (o, 0) := by
  induction n with
  | zero => rfl
  | succ n ih =>
      simp [Outlet.serialize_shutdowns, Outlet.lockedShutdownCheckFlip, h, ih]

/-- C8.  `N ≥ 1` threads racing through `try_start` on a fresh outlet: the
thread lock serialises the guarded check-and-flip sections (the hooks run
after the lock is released and touch no lifecycle state), so whatever the
acquisition order, exactly one thread is allowed to run `on_start` and the
outlet ends active; symmetrically, `N` concurrent `try_shutdown` calls on an
active outlet run `on_shutdown` exactly once and end inactive. -/
theorem concurrent_lifecycle_once {α β : Type} (p : PushImpl α β) (n : Nat)
    (hn : 1 ≤ n) :
    Outlet.serialize_starts n (Outlet.init p) =
      ({ Outlet.init p with _active := true }, 1) ∧
    (∀ o : Outlet α β, o.active = true →
      Outlet.serialize_shutdowns n o = ({ o with _active := false }, 1)) := by
  obtain ⟨m, rfl⟩ : ∃ m, n = m + 1 := ⟨n - 1, by omega⟩
  constructor
  · have hstep : (Outlet.init p).lockedStartCheckFlip =
        ({ Outlet.init p with _active := true }, true) := rfl
    simp [Outlet.serialize_starts, hstep,
      serialize_starts_active m _ (rfl : ({ Outlet.init p with
        _active := true } : Outlet α β)._active = true)]
  · intro o h
    have h' : o._active = true := h
    have hstep : o.lockedShutdownCheckFlip =
        ({ o with _active := false }, true) := by
      simp [Outlet.lockedShutdownCheckFlip, h']
    simp [Outlet.serialize_shutdowns, hstep,
      serialize_shutdowns_inactive m ({ o with _active := false } :
        Outlet α β) rfl]

/-- Witness for C8: three racing `try_start` calls on a fresh outlet fire the
hook exactly once, and three racing `try_shutdown` calls on the resulting
active outlet fire theirs exactly once. -/
theorem concurrent_lifecycle_once_witness :
    Outlet.serialize_starts 3 (Outlet.init (PushImpl.sync (id : Nat → Nat))) =
      ({ Outlet.init (PushImpl.sync (id : Nat → Nat)) with _active := true },
        1) ∧
    Outlet.serialize_shutdowns 3
        ({ Outlet.init (PushImpl.sync (id : Nat → Nat)) with
          _active := true } : Outlet Nat Nat) =
      ({ Outlet.init (PushImpl.sync (id : Nat → Nat)) with _active := false },
        1) :=
  ⟨(concurrent_lifecycle_once (PushImpl.sync (id : Nat → Nat)) 3
      (by decide)).1,
   (concurrent_lifecycle_once (PushImpl.sync (id : Nat → Nat)) 3
      (by decide)).2
     ({ Outlet.init (PushImpl.sync (id : Nat → Nat)) with _active := true } :
       Outlet Nat Nat) rfl⟩

/-- C9.  The sync/async nature of `push` is detected once, at construction,
and stored; `_push` dispatches on the stored flag — awaiting the coroutine
when `push` is a coroutine function and calling it synchronously otherwise —
so it always runs the push body to completion, and for a synchronous `push`
the effect of `_push` is exactly `push`. -/
theorem push_dispatch_detected_once {α β : Type} (p : PushImpl α β) (x : α) :
    (Outlet.init p)._uses_coroutine = iscoroutinefunction p ∧
    (Outlet.init p)._push x = PushOutcome.completed (pushEffect p x) ∧
    (∀ f : α → β, (Outlet.init (PushImpl.sync f))._push x =
      PushOutcome.completed (f x)) := by
  refine ⟨rfl, ?_, fun f => rfl⟩
  cases p with
  | sync f => rfl
  | coroutine f => rfl

/-- C10.  The `active` flag is flipped inside the guarded section before the
hook runs: an `on_start` hook triggered by `try_start` observes the outlet
with `active = true`, and an `on_shutdown` hook triggered by `try_shutdown`
observes `active = false`. -/
theorem hook_observes_post_transition {α β : Type} (o : Outlet α β) :
    (∀ {γ : Type} (hook : Outlet α β → γ), o.active = false →
      o.try_start_observing hook =
        ({ o with _active := true },
          some (hook { o with _active := true }))) ∧
    (∀ {γ : Type} (hook : Outlet α β → γ), o.active = true →
      o.try_shutdown_observing hook =
        ({ o with _active := false },
          some (hook { o with _active := false }))) ∧
    (o.active = false → (o.try_start_observing Outlet.active).2 = some true) ∧
    (o.active = true →
      (o.try_shutdown_observing Outlet.active).2 = some false) := by
  have hs : o.active = false → o.lockedStartCheckFlip =
      ({ o with _active := true }, true) := by
    intro h
    have h' : o._active = false := h
    simp [Outlet.lockedStartCheckFlip, h']
  have hd : o.active = true → o.lockedShutdownCheckFlip =
      ({ o with _active := false }, true) := by
    intro h
    have h' : o._active = true := h
    simp [Outlet.lockedShutdownCheckFlip, h']
  refine ⟨?_, ?_, ?_, ?_⟩
  · intro γ hook h
    simp [Outlet.try_start_observing, hs h]
  · intro γ hook h
    simp [Outlet.try_shutdown_observing, hd h]
  · intro h
    simp [Outlet.try_start_observing, hs h, Outlet.active]
  · intro h
    simp [Outlet.try_shutdown_observing, hd h, Outlet.active]

/-- Witness for C10: on a concrete fresh outlet, the `on_start` hook that
queries its own destination's `active` state observes `true`. -/
theorem hook_observes_post_transition_witness :
    ((Outlet.init (PushImpl.sync (id : Nat → Nat))).try_start_observing
      Outlet.active).2 = some true :=
  (hook_observes_post_transition
    (Outlet.init (PushImpl.sync (id : Nat → Nat)))).2.2.1 rfl

end Databay
